import Mathlib

/-!
# Verification of `fmriprep/workflows/fieldmap/unwarp.py`

Shallow embedding of the susceptibility-distortion-correction (SDC) module:
the two nipype workflow builders (`init_sdc_unwarp_wf` and
`init_pepolar_unwarp_report_wf`) are modelled as pure functions producing a
static graph (node list + edge list), exactly mirroring the
`workflow.connect` calls of the source, including the build-time conditional
branches on `fmap_bspline` and `fmap_demean`.  The pure helper functions
(`_demean`, `_hz2rads`, `_gen_line`, `_generate_idata`, `_get_pedir_fugue`,
`_pick_first`, …) are translated over exact rationals (ℚ) in place of
floating-point arrays; a NaN-valued voxel is represented by `none` in
`Option ℚ`.  Multi-dimensional voxel arrays are represented by their
flattened (C-order) list of voxel values, which is the order in which numpy
boolean indexing (`data[msk > 0]`) enumerates them.
-/

/-! ## Ports, nodes and edges -/

/-- Input/output port names appearing in the `workflow.connect` calls. -/
inductive Port
  | in_file | mask_file | moving_image | fixed_image | reference_image
  | transforms | input_image | source_file | dwell_time | unwarp_direction
  | pe_dir | fmap_in_file | in_mask | deformationField
  | out_warp | out_reference | out_mask | out_mask_report | out_jacobian
  | name_source | in_reference | fmap_ref | fmap | fmap_mask
  | composite_transform | out_report | out_file | output_image | out_dict
  | out | shift_out_file | jacobian_image
  | in1 | in2 | in_files | merged_file | encoding_file | hdr_file
  | out_warps | out_jacs | operand_file
deriving DecidableEq, Repr

/-- Helper functions interposed on a connection, as in
`(('out_dict', _get_ec), 'dwell_time')`. -/
inductive FnTag
  | pickFirst      -- `_pick_first`
  | getEc          -- `_get_ec`
  | getPedirFugue  -- `_get_pedir_fugue`
  | getPedirBids   -- `_get_pedir_bids`
deriving DecidableEq, Repr

/-- A typed edge of a nipype workflow graph: source node/port, an optional
helper function applied on the wire, destination node/port. -/
structure WEdge (N : Type) where
  src : N
  srcPort : Port
  fn : Option FnTag
  dst : N
  dstPort : Port
deriving DecidableEq, Repr

/-- A workflow graph: the nodes added by `workflow.connect` and the edges. -/
structure WGraph (N : Type) where
  nodes : List N
  edges : List (WEdge N)
deriving DecidableEq, Repr

/-! ## The fieldmap-based pipeline `init_sdc_unwarp_wf` -/

/-- Nodes of `init_sdc_unwarp_wf` (source lines 87–155). -/
inductive SdcNode
  | inputnode | outputnode | meta | explicit_mask_epi
  | fmap2ref_reg | ds_reg | fmap2ref_apply | fmap_mask2ref_apply
  | ds_reg_vsm | torads | gen_vsm | vsm2dfm | jac_dfm
  | unwarp_reference | fieldmap_fov_mask | fmap_fov2ref_apply
  | apply_fov_mask | ref_msk_post | demean
deriving DecidableEq, Repr

open SdcNode in
/-- The unconditional `workflow.connect` block (source lines 157–196). -/
def sdcBaseEdges : List (WEdge SdcNode) := [
  ⟨inputnode, .name_source, none, meta, .in_file⟩,
  ⟨inputnode, .in_reference, none, explicit_mask_epi, .in_file⟩,
  ⟨inputnode, .in_mask, none, explicit_mask_epi, .mask_file⟩,
  ⟨inputnode, .fmap_ref, none, fmap2ref_reg, .moving_image⟩,
  ⟨inputnode, .in_reference, none, fmap2ref_apply, .reference_image⟩,
  ⟨fmap2ref_reg, .composite_transform, none, fmap2ref_apply, .transforms⟩,
  ⟨inputnode, .in_reference, none, fmap_mask2ref_apply, .reference_image⟩,
  ⟨fmap2ref_reg, .composite_transform, none, fmap_mask2ref_apply, .transforms⟩,
  ⟨inputnode, .name_source, none, ds_reg_vsm, .source_file⟩,
  ⟨fmap2ref_apply, .out_report, none, ds_reg_vsm, .in_file⟩,
  ⟨explicit_mask_epi, .out_file, none, fmap2ref_reg, .fixed_image⟩,
  ⟨inputnode, .name_source, none, ds_reg, .source_file⟩,
  ⟨fmap2ref_reg, .out_report, none, ds_reg, .in_file⟩,
  ⟨inputnode, .fmap, none, fmap2ref_apply, .input_image⟩,
  ⟨inputnode, .fmap_mask, none, fmap_mask2ref_apply, .input_image⟩,
  ⟨fmap2ref_apply, .output_image, none, torads, .in_file⟩,
  ⟨meta, .out_dict, some .getEc, gen_vsm, .dwell_time⟩,
  ⟨meta, .out_dict, some .getPedirFugue, gen_vsm, .unwarp_direction⟩,
  ⟨meta, .out_dict, some .getPedirBids, vsm2dfm, .pe_dir⟩,
  ⟨torads, .out, none, gen_vsm, .fmap_in_file⟩,
  ⟨vsm2dfm, .out_file, none, unwarp_reference, .transforms⟩,
  ⟨inputnode, .in_reference, none, unwarp_reference, .reference_image⟩,
  ⟨inputnode, .in_reference, none, unwarp_reference, .input_image⟩,
  ⟨vsm2dfm, .out_file, none, outputnode, .out_warp⟩,
  ⟨vsm2dfm, .out_file, none, jac_dfm, .deformationField⟩,
  ⟨inputnode, .fmap_ref, none, fieldmap_fov_mask, .in_file⟩,
  ⟨fieldmap_fov_mask, .out, none, fmap_fov2ref_apply, .input_image⟩,
  ⟨inputnode, .in_reference, none, fmap_fov2ref_apply, .reference_image⟩,
  ⟨fmap2ref_reg, .composite_transform, none, fmap_fov2ref_apply, .transforms⟩,
  ⟨fmap_fov2ref_apply, .output_image, none, apply_fov_mask, .mask_file⟩,
  ⟨unwarp_reference, .output_image, none, apply_fov_mask, .in_file⟩,
  ⟨apply_fov_mask, .out_file, none, ref_msk_post, .in_file⟩,
  ⟨apply_fov_mask, .out_file, none, outputnode, .out_reference⟩,
  ⟨ref_msk_post, .mask_file, none, outputnode, .out_mask⟩,
  ⟨ref_msk_post, .out_report, none, outputnode, .out_mask_report⟩,
  ⟨jac_dfm, .jacobian_image, none, outputnode, .out_jacobian⟩]

open SdcNode in
/-- The nodes instantiated unconditionally by `init_sdc_unwarp_wf`. -/
def sdcFixedNodes : List SdcNode := [
  inputnode, outputnode, meta, explicit_mask_epi, fmap2ref_reg, ds_reg,
  fmap2ref_apply, fmap_mask2ref_apply, ds_reg_vsm, torads, gen_vsm, vsm2dfm,
  jac_dfm, unwarp_reference, fieldmap_fov_mask, fmap_fov2ref_apply,
  apply_fov_mask, ref_msk_post]

open SdcNode in
/-- `init_sdc_unwarp_wf` (source lines 38–218).  `reportlets_dir`,
`ants_nthreads` and the `debug` flag only configure node parameters (the
ANTs settings file, thread count, sink directory); they do not change the
graph topology.  `fmap_bspline` and `fmap_demean` select edge sets at build
time (source lines 198–216). -/
def init_sdc_unwarp_wf (fmap_bspline fmap_demean _debug : Bool) :
    WGraph SdcNode :=
  { nodes := sdcFixedNodes ++ (if fmap_demean then [demean] else []),
    edges := sdcBaseEdges
      ++ (if fmap_bspline then [] else
            [⟨fmap_mask2ref_apply, .output_image, none, gen_vsm, .mask_file⟩])
      ++ (if fmap_demean then
            [⟨gen_vsm, .shift_out_file, none, demean, .in_file⟩,
             ⟨fmap_mask2ref_apply, .output_image, none, demean, .in_mask⟩,
             ⟨demean, .out, none, vsm2dfm, .in_file⟩]
          else
            [⟨gen_vsm, .shift_out_file, none, vsm2dfm, .in_file⟩]) }

/-! ## The PEPOLAR pipeline `init_pepolar_unwarp_report_wf` -/

/-- Nodes of `init_pepolar_unwarp_report_wf` (source lines 223–274). -/
inductive PepNode
  | inputnode | outputnode | mag_inu | cphdr | skullstrip
  | apply_skullstrip | explicit_mask_epi | merge_list | merge
  | generate_idata | topup | to_ants | cphdr_warp
  | unwarp_reference | apply_jacobian | ref_msk_post
deriving DecidableEq, Repr

/-- An entry of the `fmaps` build-time parameter: a dictionary holding the
path of one opposite-phase-encoded EPI volume. -/
structure Fmap where
  epi : String
deriving DecidableEq, Repr

open PepNode in
/-- The `workflow.connect` block of `init_pepolar_unwarp_report_wf`
(source lines 276–304).  The connections
`(explicit_mask_epi, merge_list, [('out_file', 'in1')])` and
`(apply_skullstrip, merge_list, [('out_file', 'in2')])` are commented out in
the source and therefore absent here; `merge_list` is fed the raw
`in_reference` and the `cphdr` outputs instead. -/
def pepolarEdges : List (WEdge PepNode) := [
  ⟨inputnode, .in_reference, none, explicit_mask_epi, .in_file⟩,
  ⟨inputnode, .in_mask, none, explicit_mask_epi, .mask_file⟩,
  ⟨inputnode, .in_reference, none, merge_list, .in1⟩,
  ⟨mag_inu, .output_image, none, cphdr, .in_file⟩,
  ⟨cphdr, .out_file, none, skullstrip, .in_file⟩,
  ⟨skullstrip, .mask_file, none, apply_skullstrip, .mask_file⟩,
  ⟨cphdr, .out_file, none, merge_list, .in2⟩,
  ⟨merge_list, .out, none, merge, .in_files⟩,
  ⟨inputnode, .name_source, none, generate_idata, .name_source⟩,
  ⟨generate_idata, .out, none, topup, .encoding_file⟩,
  ⟨merge, .merged_file, none, topup, .in_file⟩,
  ⟨inputnode, .in_reference, none, cphdr_warp, .hdr_file⟩,
  ⟨topup, .out_warps, some .pickFirst, cphdr_warp, .in_file⟩,
  ⟨cphdr_warp, .out_file, none, to_ants, .in_file⟩,
  ⟨to_ants, .out, none, unwarp_reference, .transforms⟩,
  ⟨inputnode, .in_reference, none, unwarp_reference, .reference_image⟩,
  ⟨inputnode, .in_reference, none, unwarp_reference, .input_image⟩,
  ⟨unwarp_reference, .output_image, none, apply_jacobian, .in_file⟩,
  ⟨topup, .out_jacs, some .pickFirst, apply_jacobian, .operand_file⟩,
  ⟨apply_jacobian, .out_file, none, ref_msk_post, .in_file⟩,
  ⟨unwarp_reference, .output_image, none, outputnode, .out_reference⟩,
  ⟨ref_msk_post, .mask_file, none, outputnode, .out_mask⟩,
  ⟨ref_msk_post, .out_report, none, outputnode, .out_mask_report⟩,
  ⟨to_ants, .out, none, outputnode, .out_warp⟩,
  ⟨topup, .out_jacs, some .pickFirst, outputnode, .out_jacobian⟩]

open PepNode in
/-- The nodes of the PEPOLAR pipeline. -/
def pepolarNodes : List PepNode := [
  inputnode, outputnode, mag_inu, cphdr, skullstrip, apply_skullstrip,
  explicit_mask_epi, merge_list, merge, generate_idata, topup, to_ants,
  cphdr_warp, unwarp_reference, apply_jacobian, ref_msk_post]

/-- The built PEPOLAR workflow: the graph plus the static (build-time)
inputs assigned to the fan-out (`MapNode`) nodes from the `fmaps` list
(source lines 234, 237, 245). -/
structure PepolarWf where
  graph : WGraph PepNode
  magInuFiles : List String          -- `mag_inu.inputs.input_image`
  cphdrHdrFiles : List String        -- `cphdr.inputs.hdr_file`
  applySkullstripFiles : List String -- `apply_skullstrip.inputs.in_file`
deriving DecidableEq, Repr

/-- `init_pepolar_unwarp_report_wf` (source lines 221–306).  The edge set
does not depend on `fmaps`: the opposite-phase volumes enter only as static
inputs of the fan-out nodes. -/
def init_pepolar_unwarp_report_wf (fmaps : List Fmap) : PepolarWf :=
  { graph := { nodes := pepolarNodes, edges := pepolarEdges },
    magInuFiles := fmaps.map (·.epi),
    cphdrHdrFiles := fmaps.map (·.epi),
    applySkullstripFiles := fmaps.map (·.epi) }

/-! ## C1: conditional demean wiring -/

open SdcNode in
/-- C1. For every build of `init_sdc_unwarp_wf`: with `fmap_demean = false`
the `gen_vsm` voxel-shift output feeds `vsm2dfm` directly and no `demean`
node (nor any edge touching one) exists in the graph; with
`fmap_demean = true` the `demean` node lies strictly between `gen_vsm` and
`vsm2dfm` (edges `gen_vsm → demean` and `demean → vsm2dfm` present, direct
edge absent).  Exactly one of the two topologies is produced per build,
never both. -/
theorem sdc_demean_conditional_wiring :
    ∀ fmap_bspline fmap_demean debug : Bool,
      ((⟨gen_vsm, .shift_out_file, none, vsm2dfm, .in_file⟩ ∈
          (init_sdc_unwarp_wf fmap_bspline fmap_demean debug).edges ∧
        demean ∉ (init_sdc_unwarp_wf fmap_bspline fmap_demean debug).nodes ∧
        ∀ e ∈ (init_sdc_unwarp_wf fmap_bspline fmap_demean debug).edges,
          e.src ≠ demean ∧ e.dst ≠ demean) ↔ fmap_demean = false) ∧
      ((⟨gen_vsm, .shift_out_file, none, demean, .in_file⟩ ∈
          (init_sdc_unwarp_wf fmap_bspline fmap_demean debug).edges ∧
        ⟨demean, .out, none, vsm2dfm, .in_file⟩ ∈
          (init_sdc_unwarp_wf fmap_bspline fmap_demean debug).edges ∧
        ⟨gen_vsm, .shift_out_file, none, vsm2dfm, .in_file⟩ ∉
          (init_sdc_unwarp_wf fmap_bspline fmap_demean debug).edges) ↔
        fmap_demean = true) ∧
      ¬(⟨gen_vsm, .shift_out_file, none, vsm2dfm, .in_file⟩ ∈
          (init_sdc_unwarp_wf fmap_bspline fmap_demean debug).edges ∧
        ⟨demean, .out, none, vsm2dfm, .in_file⟩ ∈
          (init_sdc_unwarp_wf fmap_bspline fmap_demean debug).edges) := by
  decide

/-! ## Graph invariants: acyclicity and single-feed input ports -/

/-- One-step reachability along the edge list. -/
def EdgeStep {N : Type} (E : List (WEdge N)) (a b : N) : Prop :=
  ∃ e ∈ E, e.src = a ∧ e.dst = b

/-- A graph is acyclic when no node reaches itself through a nonempty
path of edges. -/
def Acyclic {N : Type} (E : List (WEdge N)) : Prop :=
  ∀ n, ¬ Relation.TransGen (EdgeStep E) n n

/-- Ports that accept collections of values (the list-typed inputs of the
merge interfaces). -/
def isCollectionPort : Port → Bool
  | .in_files => true
  | .transforms => true
  | _ => false

/-- Every input port is fed by at most one edge, except collection ports. -/
def UniqueInputFeeds {N : Type} (E : List (WEdge N)) : Prop :=
  ∀ e₁ ∈ E, ∀ e₂ ∈ E, e₁.dst = e₂.dst → e₁.dstPort = e₂.dstPort →
    isCollectionPort e₁.dstPort = true ∨ e₁ = e₂

/-- A rank function increasing along every edge certifies acyclicity. -/
theorem acyclic_of_rank {N : Type} (E : List (WEdge N)) (rank : N → Nat)
    (h : ∀ e ∈ E, rank e.src < rank e.dst) : Acyclic E := by
  intro n hcyc
  have mono : ∀ a b, Relation.TransGen (EdgeStep E) a b → rank a < rank b := by
    intro a b hab
    induction hab with
    | single hs =>
        obtain ⟨e, he, h1, h2⟩ := hs
        exact h1 ▸ h2 ▸ h e he
    | tail _ hs ih =>
        obtain ⟨e, he, h1, h2⟩ := hs
        exact ih.trans (h1 ▸ h2 ▸ h e he)
  exact absurd (mono n n hcyc) (lt_irrefl _)

/-- A topological ranking of the fieldmap-pipeline nodes. -/
def sdcRank : SdcNode → Nat
  | .inputnode => 0
  | .meta => 1
  | .explicit_mask_epi => 1
  | .fieldmap_fov_mask => 1
  | .fmap2ref_reg => 2
  | .ds_reg => 3
  | .fmap2ref_apply => 3
  | .fmap_mask2ref_apply => 3
  | .fmap_fov2ref_apply => 3
  | .ds_reg_vsm => 4
  | .torads => 4
  | .gen_vsm => 5
  | .demean => 6
  | .vsm2dfm => 7
  | .jac_dfm => 8
  | .unwarp_reference => 8
  | .apply_fov_mask => 9
  | .ref_msk_post => 10
  | .outputnode => 11

/-- A topological ranking of the PEPOLAR-pipeline nodes. -/
def pepRank : PepNode → Nat
  | .inputnode => 0
  | .mag_inu => 0
  | .cphdr => 1
  | .explicit_mask_epi => 1
  | .generate_idata => 1
  | .skullstrip => 2
  | .merge_list => 2
  | .apply_skullstrip => 3
  | .merge => 3
  | .topup => 4
  | .cphdr_warp => 5
  | .to_ants => 6
  | .unwarp_reference => 7
  | .apply_jacobian => 8
  | .ref_msk_post => 9
  | .outputnode => 10

/-- C4. Every graph produced by either builder — `init_sdc_unwarp_wf` under
any combination of `fmap_bspline`/`fmap_demean` (and `debug`), and
`init_pepolar_unwarp_report_wf` for any non-empty `fmaps` list — is acyclic,
and every input port of every node is fed by at most one edge, collection
ports excepted. -/
theorem built_graphs_acyclic_unique_feeds :
    (∀ fmap_bspline fmap_demean debug : Bool,
      Acyclic (init_sdc_unwarp_wf fmap_bspline fmap_demean debug).edges ∧
      UniqueInputFeeds (init_sdc_unwarp_wf fmap_bspline fmap_demean debug).edges) ∧
    (∀ fmaps : List Fmap, fmaps ≠ [] →
      Acyclic (init_pepolar_unwarp_report_wf fmaps).graph.edges ∧
      UniqueInputFeeds (init_pepolar_unwarp_report_wf fmaps).graph.edges) := by
  constructor
  · intro fmap_bspline fmap_demean debug
    constructor
    · exact acyclic_of_rank _ sdcRank
        (by cases fmap_bspline <;> cases fmap_demean <;> cases debug <;> decide)
    · unfold UniqueInputFeeds
      cases fmap_bspline <;> cases fmap_demean <;> cases debug <;> decide
  · intro fmaps _
    have hE : (init_pepolar_unwarp_report_wf fmaps).graph.edges = pepolarEdges := rfl
    rw [hE]
    exact ⟨acyclic_of_rank _ pepRank (by decide), by unfold UniqueInputFeeds; decide⟩

/-- Witness for C4: both conjuncts applied at concrete inputs, the
non-emptiness hypothesis discharged at the one-element `fmaps` list. -/
theorem built_graphs_acyclic_unique_feeds_witness :
    (Acyclic (init_sdc_unwarp_wf false true false).edges ∧
     UniqueInputFeeds (init_sdc_unwarp_wf false true false).edges) ∧
    (Acyclic (init_pepolar_unwarp_report_wf [⟨"epi1.nii.gz"⟩]).graph.edges ∧
     UniqueInputFeeds (init_pepolar_unwarp_report_wf [⟨"epi1.nii.gz"⟩]).graph.edges) :=
  ⟨built_graphs_acyclic_unique_feeds.1 false true false,
   built_graphs_acyclic_unique_feeds.2 [⟨"epi1.nii.gz"⟩] (by decide)⟩

/-! ## C2: what feeds the time-axis concatenation -/

open PepNode in
/-- The wiring asserted by the claim: the concatenation chain
(`merge_list` gathering into `merge`) receives the subject's reference on
`in1` and the skull-strip-masked corrected volumes on `in2`. -/
def ClaimC2Wiring (g : WGraph PepNode) : Prop :=
  (⟨inputnode, .in_reference, none, merge_list, .in1⟩ ∈ g.edges) ∧
  (⟨apply_skullstrip, .out_file, none, merge_list, .in2⟩ ∈ g.edges) ∧
  (⟨merge_list, .out, none, merge, .in_files⟩ ∈ g.edges)

/-- C2 counterexample.  In the graph built for a concrete one-element
`fmaps` list, the concatenation does not receive the masked volumes: the
`apply_skullstrip → merge_list` connection is absent (it is commented out
in the source, line 284), so the claimed wiring fails. -/
theorem pepolar_merge_masked_input_refuted :
    ¬ ClaimC2Wiring (init_pepolar_unwarp_report_wf [⟨"epi1.nii.gz"⟩]).graph := by
  unfold ClaimC2Wiring
  decide

open PepNode in
/-- C2 amended.  In every graph built by `init_pepolar_unwarp_report_wf`,
the concatenation chain receives, in order, the subject's reference image
first (`inputnode.in_reference → merge_list.in1`) and then the
opposite-phase volumes after bias correction and header repair but *not*
masked (`cphdr.out_file → merge_list.in2`); the masking branch
(`skullstrip`/`apply_skullstrip`) is built and fed, but its output feeds no
node.  The fan-out nodes receive the volumes in input-list order. -/
theorem pepolar_merge_inputs :
    ∀ fmaps : List Fmap,
      (⟨inputnode, .in_reference, none, merge_list, .in1⟩ ∈
        (init_pepolar_unwarp_report_wf fmaps).graph.edges) ∧
      (⟨cphdr, .out_file, none, merge_list, .in2⟩ ∈
        (init_pepolar_unwarp_report_wf fmaps).graph.edges) ∧
      (⟨merge_list, .out, none, merge, .in_files⟩ ∈
        (init_pepolar_unwarp_report_wf fmaps).graph.edges) ∧
      (⟨apply_skullstrip, .out_file, none, merge_list, .in2⟩ ∉
        (init_pepolar_unwarp_report_wf fmaps).graph.edges) ∧
      (∀ e ∈ (init_pepolar_unwarp_report_wf fmaps).graph.edges,
        e.src ≠ apply_skullstrip) ∧
      (init_pepolar_unwarp_report_wf fmaps).magInuFiles = fmaps.map (·.epi) ∧
      (init_pepolar_unwarp_report_wf fmaps).applySkullstripFiles =
        fmaps.map (·.epi) := by
  intro fmaps
  simp only [init_pepolar_unwarp_report_wf]
  refine ⟨?_, ?_, ?_, ?_, ?_, ?_, ?_⟩ <;> decide

/-! ## C3: Jacobian application and the `out_reference` boundary -/

open PepNode in
/-- The wiring asserted by the claim: the unwarped reference is multiplied
by the first Jacobian map, and the Jacobian-corrected image both reaches
the `out_reference` boundary output and feeds the mask recomputation. -/
def ClaimC3Wiring (g : WGraph PepNode) : Prop :=
  (⟨unwarp_reference, .output_image, none, apply_jacobian, .in_file⟩ ∈ g.edges) ∧
  (⟨topup, .out_jacs, some .pickFirst, apply_jacobian, .operand_file⟩ ∈ g.edges) ∧
  (⟨apply_jacobian, .out_file, none, outputnode, .out_reference⟩ ∈ g.edges) ∧
  (⟨apply_jacobian, .out_file, none, ref_msk_post, .in_file⟩ ∈ g.edges)

/-- C3 counterexample.  In the graph built for a concrete one-element
`fmaps` list, the Jacobian-corrected image does not reach `out_reference`:
that boundary output is wired from `unwarp_reference.output_image`
(source line 299), not from `apply_jacobian`. -/
theorem pepolar_jacobian_out_reference_refuted :
    ¬ ClaimC3Wiring (init_pepolar_unwarp_report_wf [⟨"epi1.nii.gz"⟩]).graph := by
  unfold ClaimC3Wiring
  decide

/-- `_pick_first` (source lines 312–313): `l[0]`, which raises on an empty
list; modelled as `Option`. -/
def _pick_first {α : Type} (l : List α) : Option α :=
  l[0]?

open PepNode in
/-- C3 amended.  In every graph built by `init_pepolar_unwarp_report_wf`,
the unwarped reference is multiplied voxel-wise by the first
Jacobian-determinant map returned by the blip-pair estimator
(`_pick_first` of `topup.out_jacs`), and the Jacobian-corrected image feeds
the brain-mask recomputation node `ref_msk_post` — but the `out_reference`
boundary output delivers the *uncorrected* unwarped reference
(`unwarp_reference.output_image`), and nothing else feeds that output. -/
theorem pepolar_jacobian_wiring :
    (∀ fmaps : List Fmap,
      (⟨unwarp_reference, .output_image, none, apply_jacobian, .in_file⟩ ∈
        (init_pepolar_unwarp_report_wf fmaps).graph.edges) ∧
      (⟨topup, .out_jacs, some .pickFirst, apply_jacobian, .operand_file⟩ ∈
        (init_pepolar_unwarp_report_wf fmaps).graph.edges) ∧
      (⟨apply_jacobian, .out_file, none, ref_msk_post, .in_file⟩ ∈
        (init_pepolar_unwarp_report_wf fmaps).graph.edges) ∧
      (⟨unwarp_reference, .output_image, none, outputnode, .out_reference⟩ ∈
        (init_pepolar_unwarp_report_wf fmaps).graph.edges) ∧
      (∀ e ∈ (init_pepolar_unwarp_report_wf fmaps).graph.edges,
        e.dst = outputnode → e.dstPort = .out_reference →
          e.src = unwarp_reference ∧ e.srcPort = .output_image)) ∧
    (∀ (x : ℕ) (xs : List ℕ), _pick_first (x :: xs) = some x) := by
  constructor
  · intro fmaps
    simp only [init_pepolar_unwarp_report_wf]
    exact ⟨by decide, by decide, by decide, by decide, by decide⟩
  · intro x xs
    simp [_pick_first]

/-- Witness for C3's amended theorem: the universally quantified edge
condition applied at a concrete edge of the concrete graph. -/
theorem pepolar_jacobian_wiring_witness :
    (⟨PepNode.unwarp_reference, .output_image, none, PepNode.outputnode,
        .out_reference⟩ : WEdge PepNode).src = PepNode.unwarp_reference ∧
    (⟨PepNode.unwarp_reference, .output_image, none, PepNode.outputnode,
        .out_reference⟩ : WEdge PepNode).srcPort = Port.output_image :=
  (pepolar_jacobian_wiring.1 [⟨"epi1.nii.gz"⟩]).2.2.2.2
    ⟨PepNode.unwarp_reference, .output_image, none, PepNode.outputnode,
      .out_reference⟩ (by decide) rfl rfl

/-! ## Phase-encoding codes and their consumers -/

/-- A BIDS phase-encoding code (`"i"`, `"j-"`, …), as its characters. -/
abbrev PedirCode := List Char

/-- `_get_pedir_fugue` (source lines 381–382):
`pedir.replace('i', 'x').replace('j', 'y').replace('k', 'z')`.  Every
pattern and replacement is a single character, so `str.replace` coincides
with per-character substitution, applied in sequence. -/
def _get_pedir_fugue (pedir : PedirCode) : PedirCode :=
  ((pedir.map (fun c => if c = 'i' then 'x' else c)).map
      (fun c => if c = 'j' then 'y' else c)).map
    (fun c => if c = 'k' then 'z' else c)

/-- The dictionary lookup `{'i': 0, 'j': 1, 'k': 2}[pedir[0:1]]` of
`_gen_line` (source line 360); `none` models the fatal `KeyError`. -/
def axisIndex (pedir : PedirCode) : Option Nat :=
  match pedir.take 1 with
  | ['i'] => some 0
  | ['j'] => some 1
  | ['k'] => some 2
  | _ => none

/-- A code whose axis letter (first character, as a one-character slice)
lies outside the recognized grammar. -/
def BadAxisCode (pedir : PedirCode) : Prop :=
  pedir.take 1 ∉ [['i'], ['j'], ['k']]

/-- The valid FSL FUGUE `unwarp_direction` values. -/
def validFugueDirections : List PedirCode :=
  [['x'], ['y'], ['z'], ['x', '-'], ['y', '-'], ['z', '-']]

/-- An unrecognized axis letter makes the table-row lookup fail. -/
theorem axisIndex_eq_none {pedir : PedirCode} (h : BadAxisCode pedir) :
    axisIndex pedir = none := by
  unfold BadAxisCode at h
  unfold axisIndex
  split <;> first
    | rfl
    | (rename_i heq; rw [heq] at h; simp at h)

/-! ## The acquisition-parameter table (`_generate_idata`) -/

/-- The sidecar metadata fields consumed by `_gen_line`. -/
structure NiftiMeta where
  PhaseEncodingDirection : PedirCode
  TotalReadoutTime : ℚ
deriving DecidableEq, Repr

/-- `pedir.endswith('-')`. -/
def endsWithDash (pedir : PedirCode) : Bool :=
  pedir.getLast? = some '-'

/-- The per-file volume count `_gen_line` computes from the image shape
(source lines 347–350) before it is unconditionally overridden to 1
(source line 351). -/
def volsBeforeOverride (shape : List Nat) (oneline : Bool) : Nat :=
  if shape.length = 3 ∨ oneline = true then 1 else shape.getD 3 1

/-- One acquisition-parameter row (source lines 353–360): start from
`['0', '0', '0', '0']`, set entry 3 to the readout time, then set the axis
entry to ±1 according to the trailing sign of the phase-encoding code;
`none` models the `KeyError` on an unrecognized axis letter. -/
def rowOf (meta : NiftiMeta) : Option (List ℚ) :=
  (axisIndex meta.PhaseEncodingDirection).map (fun ai =>
    (([0, 0, 0, 0] : List ℚ).set 3 meta.TotalReadoutTime).set ai
      (if endsWithDash meta.PhaseEncodingDirection then -1 else 1))

/-- `_gen_line` (source lines 342–363): emits `vols` copies of the row,
where `vols` has just been overridden to 1 — `volsBeforeOverride` is
discarded by the `vols = 1` on line 351. -/
def _gen_line (shape : List Nat) (meta : NiftiMeta) (oneline : Bool) :
    Option (List (List ℚ)) :=
  let vols := (fun _ => 1) (volsBeforeOverride shape oneline)
  (rowOf meta).map (fun row => (List.range vols).map (fun _ => row))

/-- The loop of `_generate_idata` over `fmaps` (source lines 367–368):
one `_gen_line` block per file, in order, aborting on the first failure. -/
def genLinesLoop (fmaps : List Fmap) (shapeOf : String → List Nat)
    (metaOf : String → NiftiMeta) : Option (List (List ℚ)) :=
  match fmaps with
  | [] => some []
  | f :: fs => do
      let block ← _gen_line (shapeOf f.epi) (metaOf f.epi) false
      let rest ← genLinesLoop fs shapeOf metaOf
      return block ++ rest

/-- `_generate_idata` (source lines 335–370): the reference's line block
first (`oneline=True`), then one block per `fmaps` entry; shapes and
sidecar metadata are looked up by file path. -/
def _generate_idata (name_source : String) (fmaps : List Fmap)
    (shapeOf : String → List Nat) (metaOf : String → NiftiMeta) :
    Option (List (List ℚ)) := do
  let first ← _gen_line (shapeOf name_source) (metaOf name_source) true
  let rest ← genLinesLoop fmaps shapeOf metaOf
  return first ++ rest

/-! ## C8: phase-encoding codes outside the grammar -/

/-- C8 counterexample.  `['x', '-']` ("x-") is outside the recognized
`i`/`j`/`k` axis grammar, yet `_get_pedir_fugue` does not fail: it returns
the code unchanged — and the result is itself a valid FUGUE axis value, a
silent pass-through where the claim demands a fatal parse error. -/
theorem pedir_fugue_passthrough_refutes_fatal :
    BadAxisCode ['x', '-'] ∧ _get_pedir_fugue ['x', '-'] = ['x', '-'] ∧
      ['x', '-'] ∈ validFugueDirections := by
  unfold BadAxisCode
  decide

/-- C8 amended.  Of the two consumers of a phase-encoding code, only the
acquisition-table row construction fails fatally on an unrecognized axis
letter (`KeyError`, modelled by `none`): `axisIndex` and hence `_gen_line`
reject it.  The FUGUE-direction conversion performs plain character
substitution `i→x`, `j→y`, `k→z` with no validation: any code containing
none of those letters is passed through unchanged. -/
theorem pedir_consumers_amended :
    (∀ (pedir : PedirCode) (shape : List Nat) (trt : ℚ) (oneline : Bool),
      BadAxisCode pedir →
        axisIndex pedir = none ∧
        _gen_line shape ⟨pedir, trt⟩ oneline = none) ∧
    (∀ pedir : PedirCode, (∀ c ∈ pedir, c ≠ 'i' ∧ c ≠ 'j' ∧ c ≠ 'k') →
      _get_pedir_fugue pedir = pedir) := by
  constructor
  · intro pedir shape trt oneline h
    have hax := axisIndex_eq_none h
    exact ⟨hax, by simp [_gen_line, rowOf, hax]⟩
  · intro pedir h
    unfold _get_pedir_fugue
    calc ((pedir.map (fun c => if c = 'i' then 'x' else c)).map
            (fun c => if c = 'j' then 'y' else c)).map
          (fun c => if c = 'k' then 'z' else c)
        = pedir.map (fun c =>
            (fun c => if c = 'k' then 'z' else c)
              ((fun c => if c = 'j' then 'y' else c)
                ((fun c => if c = 'i' then 'x' else c) c))) := by
          simp [List.map_map, Function.comp]
      _ = pedir.map id := List.map_congr_left (fun c hc => by
            obtain ⟨h1, h2, h3⟩ := h c hc
            simp [h1, h2, h3])
      _ = pedir := List.map_id pedir

/-- Witness for C8's amended theorem: both halves applied at concrete
codes, all hypotheses discharged there. -/
theorem pedir_consumers_amended_witness :
    (axisIndex ['x', '-'] = none ∧
     _gen_line [2, 2, 2] ⟨['x', '-'], 0⟩ false = none) ∧
    _get_pedir_fugue ['q'] = ['q'] :=
  ⟨pedir_consumers_amended.1 ['x', '-'] [2, 2, 2] 0 false
      (by unfold BadAxisCode; decide),
   pedir_consumers_amended.2 ['q'] (by decide)⟩

/-! ## C6: shape of the synthesized acquisition table -/

/-- Exactly one of the first three (axis) entries of a table row is
nonzero, and it equals ±1. -/
def RowWellFormed (row : List ℚ) : Prop :=
  ∃ j, j < 3 ∧ (row.getD j 0 = 1 ∨ row.getD j 0 = -1) ∧
    ∀ j', j' < 3 → j' ≠ j → row.getD j' 0 = 0

/-- A recognized axis letter yields index 0, 1 or 2. -/
theorem axisIndex_lt_three {pedir : PedirCode} {ai : Nat}
    (h : axisIndex pedir = some ai) : ai = 0 ∨ ai = 1 ∨ ai = 2 := by
  unfold axisIndex at h
  split at h <;> simp_all

/-- A successfully built row has exactly one nonzero axis entry, equal to
±1, and carries the volume's own readout time in entry 3. -/
theorem rowOf_spec {meta : NiftiMeta} {r : List ℚ} (h : rowOf meta = some r) :
    RowWellFormed r ∧ r.getD 3 0 = meta.TotalReadoutTime := by
  unfold rowOf at h
  cases hax : axisIndex meta.PhaseEncodingDirection with
  | none => rw [hax] at h; simp at h
  | some ai =>
    rw [hax] at h
    simp only [Option.map_some'] at h
    have hdpm : (if endsWithDash meta.PhaseEncodingDirection then (-1 : ℚ)
        else 1) = 1 ∨
        (if endsWithDash meta.PhaseEncodingDirection then (-1 : ℚ) else 1)
          = -1 := by
      split <;> simp
    rcases axisIndex_lt_three hax with rfl | rfl | rfl
    · obtain rfl := Option.some.inj h
      refine ⟨⟨0, by norm_num, hdpm, ?_⟩, rfl⟩
      intro j' hj' hne
      interval_cases j' <;> first | rfl | simp_all
    · obtain rfl := Option.some.inj h
      refine ⟨⟨1, by norm_num, hdpm, ?_⟩, rfl⟩
      intro j' hj' hne
      interval_cases j' <;> first | rfl | simp_all
    · obtain rfl := Option.some.inj h
      refine ⟨⟨2, by norm_num, hdpm, ?_⟩, rfl⟩
      intro j' hj' hne
      interval_cases j' <;> first | rfl | simp_all

/-- The per-`fmaps` loop succeeds when every row does, producing one
single-row block per file, in input order. -/
theorem genLinesLoop_eq (shapeOf : String → List Nat)
    (metaOf : String → NiftiMeta) (rowF : Fmap → List ℚ) :
    ∀ fmaps : List Fmap,
      (∀ f ∈ fmaps, rowOf (metaOf f.epi) = some (rowF f)) →
      genLinesLoop fmaps shapeOf metaOf = some (fmaps.map rowF) := by
  intro fmaps
  induction fmaps with
  | nil => intro _; rfl
  | cons f fs ih =>
    intro h
    have h1 : _gen_line (shapeOf f.epi) (metaOf f.epi) false = some [rowF f] := by
      simp [_gen_line, h f (List.mem_cons_self f fs)]
    have h2 := ih (fun g hg => h g (List.mem_cons_of_mem f hg))
    simp [genLinesLoop, h1, h2]

/-- C6.  For a reference plus N opposite-phase volumes whose rows all
build, `_generate_idata` produces exactly N+1 rows, reference first and
then each volume in input order; row 0 is `rowOf` of the reference's own
metadata alone; every row has exactly one nonzero axis entry equal to ±1
and carries that volume's own readout time. -/
theorem generate_idata_table (name_source : String) (fmaps : List Fmap)
    (shapeOf : String → List Nat) (metaOf : String → NiftiMeta)
    (r0 : List ℚ) (rowF : Fmap → List ℚ)
    (h0 : rowOf (metaOf name_source) = some r0)
    (hf : ∀ f ∈ fmaps, rowOf (metaOf f.epi) = some (rowF f)) :
    _generate_idata name_source fmaps shapeOf metaOf =
        some (r0 :: fmaps.map rowF) ∧
    (r0 :: fmaps.map rowF).length = fmaps.length + 1 ∧
    RowWellFormed r0 ∧
    r0.getD 3 0 = (metaOf name_source).TotalReadoutTime ∧
    ∀ f ∈ fmaps, RowWellFormed (rowF f) ∧
      (rowF f).getD 3 0 = (metaOf f.epi).TotalReadoutTime := by
  have h1 : _gen_line (shapeOf name_source) (metaOf name_source) true
      = some [r0] := by
    simp [_gen_line, h0]
  refine ⟨?_, by simp, (rowOf_spec h0).1, (rowOf_spec h0).2, ?_⟩
  · simp [_generate_idata, h1, genLinesLoop_eq shapeOf metaOf rowF fmaps hf]
  · intro f hfm
    exact rowOf_spec (hf f hfm)

/-- Witness for C6: a concrete reference (`j`, readout 1) and one
concrete opposite-phase volume (`j-`, readout 3). -/
theorem generate_idata_table_witness :
    _generate_idata "ref.nii" [⟨"epi1.nii"⟩]
        (fun _ => [2, 2, 2])
        (fun s => if s = "ref.nii" then ⟨['j'], 1⟩ else ⟨['j', '-'], 3⟩) =
      some [[0, 1, 0, 1], [0, -1, 0, 3]] ∧
    ([[(0 : ℚ), 1, 0, 1], [0, -1, 0, 3]] : List (List ℚ)).length = 1 + 1 ∧
    RowWellFormed [0, 1, 0, 1] ∧
    ([(0 : ℚ), 1, 0, 1]).getD 3 0 =
      ((fun s => if s = "ref.nii" then (⟨['j'], 1⟩ : NiftiMeta)
        else ⟨['j', '-'], 3⟩) "ref.nii").TotalReadoutTime ∧
    ∀ f ∈ ([⟨"epi1.nii"⟩] : List Fmap),
      RowWellFormed ((fun _ => ([0, -1, 0, 3] : List ℚ)) f) ∧
      ((fun _ => ([(0 : ℚ), -1, 0, 3] : List ℚ)) f).getD 3 0 =
        ((fun s => if s = "ref.nii" then (⟨['j'], 1⟩ : NiftiMeta)
          else ⟨['j', '-'], 3⟩) f.epi).TotalReadoutTime :=
  generate_idata_table "ref.nii" [⟨"epi1.nii"⟩] (fun _ => [2, 2, 2])
    (fun s => if s = "ref.nii" then ⟨['j'], 1⟩ else ⟨['j', '-'], 3⟩)
    [0, 1, 0, 1] (fun _ => [0, -1, 0, 3])
    (by decide) (by decide)

/-! ## C10: one table row per file, all volumes in the merge -/

/-- The number of volumes a NIfTI file of the given shape contributes to a
time-axis concatenation (`fsl.Merge(dimension='t')`). -/
def numVolumes (shape : List Nat) : Nat :=
  if shape.length ≤ 3 then 1 else shape.getD 3 1

/-- Total volumes in the output of the time-axis concatenation. -/
def mergedVolumeCount (shapes : List (List Nat)) : Nat :=
  (shapes.map numVolumes).sum

/-- C10.  A 4D opposite-phase file with V > 1 volumes still contributes a
single acquisition-table row — the computed per-file count is discarded by
the unconditional `vols = 1` override — while contributing all V volumes
to the time-axis concatenation. -/
theorem gen_line_single_row_per_file
    (shape refShape : List Nat) (meta : NiftiMeta) (r : List ℚ) (V : Nat)
    (h4 : shape.length = 4) (hV : shape.getD 3 1 = V) (_h2 : 1 < V)
    (hrow : rowOf meta = some r) :
    _gen_line shape meta false = some [r] ∧
    volsBeforeOverride shape false = V ∧
    numVolumes shape = V ∧
    mergedVolumeCount [refShape, shape] = numVolumes refShape + V := by
  have hnum : numVolumes shape = V := by
    unfold numVolumes
    rw [if_neg (by omega), hV]
  refine ⟨by simp [_gen_line, hrow], ?_, hnum, ?_⟩
  · unfold volsBeforeOverride
    rw [if_neg (by simp; omega), hV]
  · unfold mergedVolumeCount
    simp only [List.map_cons, List.map_nil, List.sum_cons, List.sum_nil]
    omega

/-- Witness for C10: a 4D file of shape 2×2×2×5 (V = 5) with a recognized
phase-encoding code. -/
theorem gen_line_single_row_per_file_witness :
    _gen_line [2, 2, 2, 5] ⟨['i'], 2⟩ false = some [[1, 0, 0, 2]] ∧
    volsBeforeOverride [2, 2, 2, 5] false = 5 ∧
    numVolumes [2, 2, 2, 5] = 5 ∧
    mergedVolumeCount [[2, 2, 2], [2, 2, 2, 5]] = numVolumes [2, 2, 2] + 5 :=
  gen_line_single_row_per_file [2, 2, 2, 5] [2, 2, 2] ⟨['i'], 2⟩
    [1, 0, 0, 2] 5 rfl rfl (by norm_num) (by decide)

/-! ## Images, the median, and `_demean` -/

/-- The spatial affine of a NIfTI image, as its matrix entries. -/
abbrev Affine := List (List ℚ)

/-- A NIfTI header, abstracted as key/value character data. -/
abbrev NiftiHeader := List (List Char × List Char)

/-- A NIfTI image: flattened (C-order) voxel data plus geometry. -/
structure Image (α : Type) where
  data : List α
  affine : Affine
  header : NiftiHeader
deriving DecidableEq

/-- `np.median`: the mean of the two middle entries of the sorted data
(these coincide for odd length); `none` — numpy's NaN result — on an empty
array.  numpy's sort agrees with `List.insertionSort` on ℚ because `≤` is
total and antisymmetric. -/
def npMedian (l : List ℚ) : Option ℚ :=
  if l = [] then none
  else
    some (((l.insertionSort (· ≤ ·)).getD ((l.length - 1) / 2) 0 +
           (l.insertionSort (· ≤ ·)).getD (l.length / 2) 0) / 2)

/-- Boolean-mask selection `data[msk > 0]`, in array order. -/
def selectMasked {α : Type} (dataL : List α) (maskL : List ℚ) : List α :=
  ((dataL.zip maskL).filter (fun p => decide (0 < p.2))).map (·.1)

/-- `_demean` (source lines 399–412): subtract the median of the voxels
inside the mask from every voxel; the output reuses the input's affine and
header.  When the selection is empty the median is NaN (`none`) and every
output voxel is NaN — the function does not fail. -/
def _demean (in_file : Image ℚ) (in_mask : Image ℚ) : Image (Option ℚ) :=
  { data := in_file.data.map (fun v =>
      (npMedian (selectMasked in_file.data in_mask.data)).map (fun m => v - m)),
    affine := in_file.affine,
    header := in_file.header }

/-- Sorting commutes with subtracting a constant. -/
theorem insertionSort_map_sub (l : List ℚ) (c : ℚ) :
    (l.insertionSort (· ≤ ·)).map (fun v => v - c) =
      (l.map (fun v => v - c)).insertionSort (· ≤ ·) :=
  List.map_insertionSort (· ≤ ·) (· ≤ ·) (fun v => v - c) l
    (fun _ _ _ _ => (sub_le_sub_iff_right c).symm)

/-- `np.median` commutes with subtracting a constant. -/
theorem npMedian_map_sub (l : List ℚ) (c : ℚ) :
    npMedian (l.map (fun v => v - c)) = (npMedian l).map (fun m => m - c) := by
  rcases eq_or_ne l [] with rfl | hne
  · rfl
  · have hmapne : l.map (fun v => v - c) ≠ [] := by simpa using hne
    have hpos : 0 < l.length := List.length_pos.mpr hne
    have hslen : (l.insertionSort (· ≤ ·)).length = l.length :=
      List.length_insertionSort _ _
    have h1 : (l.length - 1) / 2 < (l.insertionSort (· ≤ ·)).length := by
      rw [hslen]
      exact lt_of_le_of_lt (Nat.div_le_self _ _) (Nat.sub_lt hpos one_pos)
    have h2 : l.length / 2 < (l.insertionSort (· ≤ ·)).length := by
      rw [hslen]
      exact Nat.div_lt_self hpos one_lt_two
    have h1m : (l.length - 1) / 2 <
        ((l.insertionSort (· ≤ ·)).map (fun v => v - c)).length := by
      rw [List.length_map]; exact h1
    have h2m : l.length / 2 <
        ((l.insertionSort (· ≤ ·)).map (fun v => v - c)).length := by
      rw [List.length_map]; exact h2
    unfold npMedian
    rw [if_neg hmapne, if_neg hne, ← insertionSort_map_sub l c, List.length_map,
        Option.map_some', List.getD_eq_getElem _ _ h1m,
        List.getD_eq_getElem _ _ h2m, List.getElem_map, List.getElem_map,
        ← List.getD_eq_getElem _ _ h1, ← List.getD_eq_getElem _ _ h2]
    congr 1
    ring

/-- Mask selection commutes with mapping the data values. -/
theorem selectMasked_map {α β : Type} (g : α → β) (dataL : List α)
    (maskL : List ℚ) :
    selectMasked (dataL.map g) maskL = (selectMasked dataL maskL).map g := by
  induction dataL generalizing maskL with
  | nil => rfl
  | cons a d ih =>
    cases maskL with
    | nil => rfl
    | cons b mk =>
      have ihb := ih mk
      simp only [selectMasked] at ihb
      simp only [selectMasked, List.map_cons, List.zip_cons_cons,
        List.filter_cons]
      by_cases h : (0 : ℚ) < b <;> simp [h, ihb]

/-- C5.  With an equal-shape field and mask and a nonempty masked
selection of median `m`, `_demean` subtracts `m` from every voxel — inside
and outside the mask alike — so the selection of the output under the mask
is the shifted input selection, whose median is 0, and the affine and
header pass through unchanged. -/
theorem demean_subtracts_masked_median (field mask : Image ℚ) (m : ℚ)
    (_hlen : field.data.length = mask.data.length)
    (hmed : npMedian (selectMasked field.data mask.data) = some m) :
    (_demean field mask).data = field.data.map (fun v => some (v - m)) ∧
    selectMasked (_demean field mask).data mask.data =
      (selectMasked field.data mask.data).map (fun v => some (v - m)) ∧
    npMedian ((selectMasked field.data mask.data).map (fun v => v - m)) =
      some 0 ∧
    (_demean field mask).affine = field.affine ∧
    (_demean field mask).header = field.header := by
  have hdata : (_demean field mask).data
      = field.data.map (fun v => some (v - m)) := by
    simp [_demean, hmed]
  refine ⟨hdata, ?_, ?_, rfl, rfl⟩
  · rw [hdata]
    exact selectMasked_map (fun v => some (v - m)) field.data mask.data
  · rw [npMedian_map_sub, hmed]
    simp

/-- Witness for C5: field `[1, 2, 5]` and mask `[1, 0, 1]`, masked
selection `[1, 5]` of median 3. -/
theorem demean_subtracts_masked_median_witness :
    (_demean ⟨[1, 2, 5], [[1]], []⟩ ⟨[1, 0, 1], [[1]], []⟩).data =
        ([1, 2, 5] : List ℚ).map (fun v => some (v - 3)) ∧
    selectMasked (_demean ⟨[1, 2, 5], [[1]], []⟩ ⟨[1, 0, 1], [[1]], []⟩).data
        ([1, 0, 1] : List ℚ) =
      (selectMasked ([1, 2, 5] : List ℚ) [1, 0, 1]).map
        (fun v => some (v - 3)) ∧
    npMedian ((selectMasked ([1, 2, 5] : List ℚ) [1, 0, 1]).map
        (fun v => v - 3)) = some 0 ∧
    (_demean ⟨[1, 2, 5], [[1]], []⟩ ⟨[1, 0, 1], [[1]], []⟩).affine = [[1]] ∧
    (_demean ⟨[1, 2, 5], [[1]], []⟩ ⟨[1, 0, 1], [[1]], []⟩).header = [] :=
  demean_subtracts_masked_median ⟨[1, 2, 5], [[1]], []⟩ ⟨[1, 0, 1], [[1]], []⟩
    3 rfl (by
      have hsel : selectMasked ([1, 2, 5] : List ℚ) [1, 0, 1] = [1, 5] := rfl
      rw [hsel]
      show some (((1 : ℚ) + 5) / 2) = some 3
      norm_num)

/-! ## C7: demeaning over an empty mask -/

/-- C7 (claim right, code wrong).  With a mask selecting no voxels the code
does not fail: `np.median` of the empty selection is NaN (with only a
`RuntimeWarning`), `data -= nan` propagates it, and `_demean` silently
returns an all-NaN image instead of raising. -/
theorem demean_empty_mask_silently_yields_nan :
    _demean ⟨[1, 2, 3], [[1]], []⟩ ⟨[0, 0, 0], [[1]], []⟩ =
      ⟨[none, none, none], [[1]], []⟩ := by
  rfl

/-! ## C9: the Hz → rad/s conversion -/

/-- `_hz2rads` (source lines 385–396): multiply every voxel by 2π (the
code's `data * 2.0 * pi`); the output is built from the input's affine and
header.  Voxel values are real numbers here, π being irrational. -/
noncomputable def _hz2rads (in_file : Image ℝ) : Image ℝ :=
  { data := in_file.data.map (fun v => v * 2 * Real.pi),
    affine := in_file.affine,
    header := in_file.header }

/-- C9.  For every input image — zeros and negative voxels included — the
output of `_hz2rads` is the elementwise product with 2π, and its length
(shape), affine and header equal the input's. -/
theorem hz2rads_spec (img : Image ℝ) :
    (_hz2rads img).data = img.data.map (fun v => v * (2 * Real.pi)) ∧
    (_hz2rads img).data.length = img.data.length ∧
    (_hz2rads img).affine = img.affine ∧
    (_hz2rads img).header = img.header := by
  refine ⟨?_, by simp [_hz2rads], rfl, rfl⟩
  exact List.map_congr_left (fun v _ => by ring)
